import Mathlib

/-!
# Verification of the Nikola plugin manager (`nikola/plugin_manager.py`)

A shallow embedding of the plugin discovery-and-loading subsystem:

* manifests (`.plugin` files) are modelled at the level of the parsed
  configparser structure (`Manifest`);
* filesystem paths are lists of components (`PyPath`);
* dynamically loaded Python modules are modelled abstractly (`ModuleCode`):
  whether executing the module raises, and which top-level definitions it
  produces (`PyDef`, carrying the type/subclass flags that the source
  inspects via `isinstance`/`issubclass`);
* the process-global mutable state touched by the manager (`sys.modules`,
  the list of loaded plugins, the category index, the deprecation throttle
  set, and the emitted log lines) is threaded explicitly through a `World`
  structure;
* a Python exception that the source does not catch is modelled with
  `Except`/`Option`; exceptions the source catches and logs are part of the
  normal return value.

The Category Registry (`CATEGORIES` in `plugin_categories.py`) is an external
input to this subsystem; its key set `CATEGORY_NAMES` is a parameter
(`cats : List String`) throughout.
-/

namespace Nikola

/-- A filesystem path, as its list of components. -/
abbrev PyPath := List String

/-- Render a path for use inside diagnostic strings (as Python would
interpolate the `Path` object). -/
def pathToString (p : PyPath) : String :=
  String.intercalate "/" p

/-- First-match association-list lookup (Python `dict` access / `in`). -/
def assocLookup {α : Type} : List (String × α) → String → Option α
  | [], _ => none
  | (k, v) :: rest, key => if k = key then some v else assocLookup rest key

/-- `LEGACY_PLUGIN_NAMES`: fixed mapping of deprecated category names to
canonical ones. -/
def LEGACY_PLUGIN_NAMES : List (String × String) :=
  [("Compiler", "PageCompiler"),
   ("Shortcode", "ShortcodePlugin"),
   ("Template", "TemplateSystem")]

/-- The `[Core]` section of a manifest, keys as configparser sees them
(`none` = key absent, access raises `KeyError`). -/
structure CoreSection where
  name : Option String
  module : Option String
deriving DecidableEq

/-- The `[Nikola]` section of a manifest (`.get` returns `none` when the key
is absent). -/
structure NikolaSection where
  pluginCategory : Option String
  compiler : Option String
deriving DecidableEq

/-- A parsed `.plugin` manifest file: which sections are present and what
they contain.  `documentation = some d` means the `[Documentation]` section
is present and its `Description` key holds `d` (possibly absent). -/
structure Manifest where
  core : Option CoreSection
  documentation : Option (Option String)
  nikola : Option NikolaSection
deriving DecidableEq

/-- `PluginCandidate`: a candidate plugin that was located but not yet
loaded. -/
structure PluginCandidate where
  name : String
  description : Option String
  plugin_id : String
  category : String
  compiler : Option String
  source_dir : PyPath
  module_name : String
deriving DecidableEq

/-- Outcome of processing one manifest inside `locate_plugins`:
an uncaught exception (`crashed`), a logged warning and skip (`rejected`),
or an emitted candidate (`accepted`). -/
inductive ManifestResult where
  | crashed (msg : String)
  | rejected (warning : String)
  | accepted (c : PluginCandidate)
deriving DecidableEq

/-- The body of the `for plugin_file in plugin_files` loop of
`locate_plugins` for a single manifest file.  Mirrors the source line by
line: `config["Core"]["name"]` and `config["Core"]["module"]` raise
(uncaught) when the section or key is absent; the three validation checks
(missing `[Nikola]` section, empty or absent category, category not in the
registry after the legacy-alias substitution) log a warning and skip. -/
def processManifest (cats : List String) (plugin_file : PyPath) (m : Manifest) :
    ManifestResult :=
  let source_dir := plugin_file.dropLast
  match m.core with
  | none => .crashed "KeyError: Core"
  | some core =>
    match core.name with
    | none => .crashed "KeyError: name"
    | some name =>
      match core.module with
      | none => .crashed "KeyError: module"
      | some module_name =>
        let plugin_id := "Plugin " ++ name ++ " from " ++ pathToString plugin_file
        let description : Option String :=
          match m.documentation with
          | none => none
          | some d => d
        match m.nikola with
        | none =>
          .rejected (plugin_id ++ " does not specify Nikola configuration - it will not be loaded")
        | some nik =>
          match nik.pluginCategory with
          | none =>
            .rejected (plugin_id ++ " does not specify any category - it will not be loaded")
          | some cat0 =>
            if cat0 = "" then
              .rejected (plugin_id ++ " does not specify any category - it will not be loaded")
            else
              let category :=
                match assocLookup LEGACY_PLUGIN_NAMES cat0 with
                | some canonical => canonical
                | none => cat0
              if category ∈ cats then
                .accepted
                  { name := name
                    description := description
                    plugin_id := plugin_id
                    category := category
                    compiler := nik.compiler
                    source_dir := source_dir
                    module_name := module_name }
              else
                .rejected (plugin_id ++ " specifies invalid category '" ++ category ++ "'")

/-- The loop of `locate_plugins` over the discovered manifest files,
accumulating candidates and warning lines; an uncaught exception aborts the
whole call. -/
def locateGo (cats : List String) :
    List (PyPath × Manifest) → List PluginCandidate → List String →
    Except String (List PluginCandidate × List String)
  | [], cands, warns => .ok (cands, warns)
  | (p, m) :: rest, cands, warns =>
    match processManifest cats p m with
    | .crashed e => .error e
    | .rejected w => locateGo cats rest cands (warns ++ [w])
    | .accepted c => locateGo cats rest (cands ++ [c]) warns

/-- `locate_plugins`, over the list of manifest files found by the scanner
(path paired with parsed content; `self.candidates` starts empty).  Returns
the candidate list together with the warning lines, or the uncaught
exception. -/
def locate_plugins (cats : List String) (manifests : List (PyPath × Manifest)) :
    Except String (List PluginCandidate × List String) :=
  locateGo cats manifests [] []

/-- The candidate `locate_plugins` emits for a manifest, if any. -/
def acceptedOf (cats : List String) (pm : PyPath × Manifest) : Option PluginCandidate :=
  match processManifest cats pm.1 pm.2 with
  | .accepted c => some c
  | _ => none

/-- The warning line `locate_plugins` logs for a manifest, if any. -/
def warningOf (cats : List String) (pm : PyPath × Manifest) : Option String :=
  match processManifest cats pm.1 pm.2 with
  | .rejected w => some w
  | _ => none

/-- A manifest whose `[Core]` section and its `name`/`module` keys are
present, so that reading it does not raise. -/
def coreWellFormed (m : Manifest) : Bool :=
  match m.core with
  | none => false
  | some core => core.name.isSome && core.module.isSome

/-! ## Module loading (`load_plugins`) -/

/-- A top-level value of an executed plugin module, with the properties the
source inspects: `isinstance(c, type)`, `issubclass(c, BasePlugin)`,
`c in CATEGORY_TYPES`, and whether calling `c()` raises. -/
structure PyDef where
  isType : Bool
  isBasePluginSubclass : Bool
  isCategoryType : Bool
  instOk : Bool
deriving DecidableEq

/-- The observable behaviour of a plugin code file: whether executing its
top level raises, and the top-level values it defines. -/
structure ModuleCode where
  execOk : Bool
  defs : List PyDef
deriving DecidableEq

/-- The filesystem relevant to `load_plugins`: which `.py` files exist and
what code they hold. -/
abbrev FileSystem := List (PyPath × ModuleCode)

/-- Look a path up in the filesystem. -/
def fsLookup : FileSystem → PyPath → Option ModuleCode
  | [], _ => none
  | (p, code) :: rest, q => if p = q then some code else fsLookup rest q

/-- `PluginInfo`: a plugin that was loaded.  The module object is an
abstract identity (allocation counter); the plugin object is the top-level
definition that was instantiated. -/
structure PluginInfo where
  name : String
  description : Option String
  plugin_id : String
  category : String
  compiler : Option String
  source_dir : PyPath
  module_name : String
  module_object : Nat
  plugin_object : PyDef
deriving DecidableEq

/-- Key of the deprecation throttle set:
`(deprecated_method, filename, lineno)`. -/
abbrev DepKey := String × String × Option Nat

/-- The process state the manager mutates: `sys.modules` (qualified name to
module-object identity), a fresh-module counter, the trace of module
executions (`exec_module` calls, recording each top-level side-effect run),
the manager's loaded plugins, its category index, the deprecation throttle
set, and the log lines emitted so far. -/
structure World where
  sysModules : List (String × Nat)
  nextId : Nat
  execLog : List PyPath
  plugins : List PluginInfo
  pluginsByCategory : List (String × List PluginInfo)
  deprecationAlreadyWarned : List DepKey
  log : List String
deriving DecidableEq

/-- A freshly constructed `PluginManager` in a fresh process. -/
def initialWorld : World :=
  { sysModules := []
    nextId := 0
    execLog := []
    plugins := []
    pluginsByCategory := []
    deprecationAlreadyWarned := []
    log := [] }

/-- `Path.relative_to`: the remainder of `p` after the prefix `root`, or
`none` when `p` is not under `root` (Python raises `ValueError`, caught by
the source). -/
def relativeTo : PyPath → PyPath → Option PyPath
  | p, [] => some p
  | [], _ :: _ => none
  | c :: p, r :: root => if c = r then relativeTo p root else none

/-- The qualified module name `load_plugins` computes: the path relative to
the plugins root, with a trailing `__init__.py` dropped or a `.py` suffix
stripped, joined with dots; if the file is not under the root
(`ValueError`), the manifest's module name is used unchanged.  (An empty
relative path would raise `IndexError` in the source; it cannot occur since
`py_file_location` is a file strictly below any directory it is relative
to.) -/
def fullModuleNameOf (plugins_root : PyPath) (py_file_location : PyPath)
    (module_name : String) : String :=
  match relativeTo py_file_location plugins_root with
  | none => module_name
  | some name_parts =>
    match name_parts.getLast? with
    | none => module_name
    | some last =>
      if last = "__init__.py" then
        String.intercalate "." name_parts.dropLast
      else if last.endsWith ".py" then
        String.intercalate "." (name_parts.dropLast ++ [last.dropRight 3])
      else
        String.intercalate "." name_parts

/-- The code-location resolution of `load_plugins`: `source_dir/module.py`,
else `source_dir/module/__init__.py`, else nothing. -/
def resolveCode (fs : FileSystem) (c : PluginCandidate) : Option (PyPath × ModuleCode) :=
  let loc1 : PyPath := c.source_dir ++ [c.module_name ++ ".py"]
  match fsLookup fs loc1 with
  | some code => some (loc1, code)
  | none =>
    let loc2 : PyPath := c.source_dir ++ [c.module_name, "__init__.py"]
    match fsLookup fs loc2 with
    | some code => some (loc2, code)
    | none => none

/-- The list comprehension selecting plugin classes from the executed
module's namespace. -/
def pluginClasses (code : ModuleCode) : List PyDef :=
  code.defs.filter fun c => c.isType && c.isBasePluginSubclass && !c.isCategoryType

/-- The body of the `for candidate in candidates` loop of `load_plugins`
for one candidate.  Every per-candidate failure appends a log line and
leaves the rest of the state alone; the `sys.modules` registration happens
before `exec_module` and is performed only when the qualified name is not
yet registered, while `exec_module` itself runs unconditionally on the
fresh module object. -/
def loadOne (fs : FileSystem) (plugins_root : PyPath) (st : World)
    (candidate : PluginCandidate) : World :=
  match resolveCode fs candidate with
  | none =>
    { st with log := st.log ++
        [candidate.plugin_id ++ " could not be loaded (no valid module detected)"] }
  | some (py_file_location, code) =>
    let plugin_id := candidate.plugin_id ++ " (" ++ pathToString py_file_location ++ ")"
    let full_module_name := fullModuleNameOf plugins_root py_file_location candidate.module_name
    let module_object := st.nextId
    let sysModules' :=
      if (assocLookup st.sysModules full_module_name).isSome then st.sysModules
      else st.sysModules ++ [(full_module_name, module_object)]
    let st1 := { st with
      sysModules := sysModules'
      nextId := st.nextId + 1
      execLog := st.execLog ++ [py_file_location] }
    if code.execOk = false then
      { st1 with log := st1.log ++ [plugin_id ++ " threw an exception while loading"] }
    else
      match pluginClasses code with
      | [] =>
        { st1 with log := st1.log ++ [plugin_id ++ " does not have any plugin classes"] }
      | [cls] =>
        if cls.instOk then
          { st1 with
            plugins := st1.plugins ++
              [{ name := candidate.name
                 description := candidate.description
                 plugin_id := candidate.plugin_id
                 category := candidate.category
                 compiler := candidate.compiler
                 source_dir := candidate.source_dir
                 module_name := candidate.module_name
                 module_object := module_object
                 plugin_object := cls }]
            log := st1.log ++ ["Loaded " ++ plugin_id] }
        else
          { st1 with log := st1.log ++
              [plugin_id ++ " threw an exception while creating an instance"] }
      | _ :: _ :: _ =>
        { st1 with log := st1.log ++
            [plugin_id ++ " has multiple plugin classes; this is not supported - skipping"] }

/-- The candidate loop of `load_plugins`. -/
def loadLoop (fs : FileSystem) (plugins_root : PyPath) (st : World)
    (candidates : List PluginCandidate) : World :=
  candidates.foldl (loadOne fs plugins_root) st

/-- One step of the category-index rebuild:
`self._plugins_by_category[plugin_info.category].append(plugin_info)`;
`none` models the `KeyError` raised when the category is not a key. -/
def addToIndex : List (String × List PluginInfo) → PluginInfo →
    Option (List (String × List PluginInfo))
  | [], _ => none
  | (c, l) :: rest, p =>
    if c = p.category then some ((c, l ++ [p]) :: rest)
    else (addToIndex rest p).map fun rest' => (c, l) :: rest'

/-- The loop appending every accumulated plugin into the fresh index. -/
def rebuildFold : List (String × List PluginInfo) → List PluginInfo →
    Option (List (String × List PluginInfo))
  | idx, [] => some idx
  | idx, p :: rest =>
    match addToIndex idx p with
    | none => none
    | some idx' => rebuildFold idx' rest

/-- The category-index rebuild at the end of `load_plugins`:
`{category: [] for category in CATEGORY_NAMES}` then one append per loaded
plugin, in load order. -/
def rebuildIndex (cats : List String) (plugins : List PluginInfo) :
    Option (List (String × List PluginInfo)) :=
  rebuildFold (cats.map fun c => (c, [])) plugins

/-- `load_plugins`: run the loader over the candidates, then rebuild the
category index over the full known category set; `none` models the uncaught
`KeyError` when some loaded plugin's category is unknown. -/
def load_plugins (fs : FileSystem) (plugins_root : PyPath) (cats : List String)
    (st : World) (candidates : List PluginCandidate) : Option World :=
  let st' := loadLoop fs plugins_root st candidates
  match rebuildIndex cats st'.plugins with
  | none => none
  | some idx => some { st' with pluginsByCategory := idx }

/-! ## Query API and deprecation shim -/

/-- `get_plugins_of_category`:
`self._plugins_by_category.get(category, [])`. -/
def get_plugins_of_category (st : World) (category : String) : List PluginInfo :=
  match assocLookup st.pluginsByCategory category with
  | some l => l
  | none => []

/-- The match condition of the `get_plugin_by_name` scan:
`p.name == name and (category is None or p.category == category)`. -/
def nameMatches (p : PluginInfo) (name : String) (category : Option String) : Bool :=
  p.name = name && (category.isNone || category = some p.category)

/-- The scan of `get_plugin_by_name` over `self.plugins`; the loop falls
through to Python's implicit `None`. -/
def pluginByNameScan (plugins : List PluginInfo) (name : String)
    (category : Option String) : Option PluginInfo :=
  match plugins with
  | [] => none
  | p :: rest =>
    if nameMatches p name category then some p
    else pluginByNameScan rest name category

/-- `get_plugin_by_name(name, category=None)`. -/
def get_plugin_by_name (st : World) (name : String) (category : Option String) :
    Option PluginInfo :=
  pluginByNameScan st.plugins name category

/-- The stack frame `traceback.extract_stack()[-3]` yields: the immediate
caller of the deprecated alias. -/
structure Frame where
  fname : String
  filename : String
  lineno : Option Nat
deriving DecidableEq, Inhabited

/-- The throttle key `_warn_deprecation` computes for a call:
`(deprecated_method, filename, lineno)`. -/
def depKey (deprecated_method : String) (caller : Frame) : DepKey :=
  (deprecated_method, caller.filename, caller.lineno)

/-- The warning line `_warn_deprecation` would emit for a call. -/
def depMessage (deprecated_method : String) (caller : Frame) : String :=
  match caller.lineno with
  | some n =>
    "Deprecated method " ++ deprecated_method ++ " still called by " ++ caller.fname ++
      " in " ++ caller.filename ++ ", line " ++ toString n ++ "."
  | none =>
    "Deprecated method " ++ deprecated_method ++ " still called by " ++ caller.fname ++
      " in " ++ caller.filename ++ "."

/-- `_warn_deprecation`: if the key is not yet in the throttle set, add it
and log the advisory warning; otherwise do nothing. -/
def warnDeprecation (st : World) (deprecated_method : String) (caller : Frame) : World :=
  let key := depKey deprecated_method caller
  if key ∈ st.deprecationAlreadyWarned then st
  else
    { st with
      deprecationAlreadyWarned := st.deprecationAlreadyWarned ++ [key]
      log := st.log ++ [depMessage deprecated_method caller] }

/-- `getPluginsOfCategory` (deprecated alias): warn, then return
`self._plugins_by_category.get(category, [])`. -/
def getPluginsOfCategory (st : World) (caller : Frame) (category : String) :
    World × List PluginInfo :=
  let st' := warnDeprecation st "getPluginsOfCategory" caller
  (st', match assocLookup st'.pluginsByCategory category with
        | some l => l
        | none => [])

/-- `getPluginByName` (deprecated alias): warn, then delegate to
`get_plugin_by_name`. -/
def getPluginByName (st : World) (caller : Frame) (name : String)
    (category : Option String) : World × Option PluginInfo :=
  let st' := warnDeprecation st "getPluginByName" caller
  (st', get_plugin_by_name st' name category)

/-! ## Derived descriptions used in the theorem statements -/

/-- Whether a candidate, taken by itself, passes every step of the module
loader: its code file resolves, executes without raising, defines exactly
one plugin class, and that class instantiates without raising. -/
def loadsOk (fs : FileSystem) (c : PluginCandidate) : Bool :=
  match resolveCode fs c with
  | none => false
  | some (_, code) =>
    code.execOk &&
      match pluginClasses code with
      | [cls] => cls.instOk
      | _ => false

/-- The candidate-visible data of a loaded plugin (every `PluginInfo` field
that is copied from the `PluginCandidate`). -/
def infoCore (p : PluginInfo) : PluginCandidate :=
  { name := p.name
    description := p.description
    plugin_id := p.plugin_id
    category := p.category
    compiler := p.compiler
    source_dir := p.source_dir
    module_name := p.module_name }

/-- Run a sequence of `_warn_deprecation` invocations (method name paired
with the caller frame) and record, for each call, whether it emitted a
warning — observed as growth of the log. -/
def warnedTrace (st : World) : List (String × Frame) → List Bool
  | [] => []
  | (m, f) :: rest =>
    let st' := warnDeprecation st m f
    decide (st.log.length < st'.log.length) :: warnedTrace st' rest

/-- The throttle key of one entry of a `_warn_deprecation` call sequence. -/
def depKeyOfCall (call : String × Frame) : DepKey :=
  depKey call.1 call.2

/-! ## Concrete fixtures used by witnesses and counterexamples -/

/-- A small category registry for concrete runs. -/
def exCats : List String := ["PageCompiler", "Taxonomy"]

/-- A well-formed manifest declaring category `PageCompiler`. -/
def exManifest : Manifest :=
  { core := some { name := some "X", module := some "m" }
    documentation := some (some "demo")
    nikola := some { pluginCategory := some "PageCompiler", compiler := none } }

/-- A manifest missing its `[Nikola]` section. -/
def exManifestNoNikola : Manifest :=
  { core := some { name := some "Y", module := some "y" }
    documentation := none
    nikola := none }

/-- A manifest whose `[Core]` section is missing entirely. -/
def exManifestNoCore : Manifest :=
  { core := none, documentation := none, nikola := none }

/-- A concrete list of located manifest files, one valid and one rejected. -/
def exManifests : List (PyPath × Manifest) :=
  [(["place", "good", "good.plugin"], exManifest),
   (["place", "bad", "bad.plugin"], exManifestNoNikola)]

/-- A plugin class: a type, subclass of `BasePlugin`, not an abstract
category type, and instantiable. -/
def exCls : PyDef :=
  { isType := true, isBasePluginSubclass := true, isCategoryType := false, instOk := true }

/-- A module defining exactly one plugin class. -/
def exCode : ModuleCode := { execOk := true, defs := [exCls] }

/-- The plugins root used in concrete runs. -/
def exRoot : PyPath := ["root"]

/-- A filesystem with one plugin code file (not under the plugins root). -/
def exFs : FileSystem := [((["other", "a", "m.py"] : PyPath), exCode)]

/-- The candidate referring to the code file of `exFs`. -/
def exCand : PluginCandidate :=
  { name := "X"
    description := some "demo"
    plugin_id := "Plugin X from other/a/x.plugin"
    category := "PageCompiler"
    compiler := none
    source_dir := ["other", "a"]
    module_name := "m" }

/-- Two call sites and a `_warn_deprecation` call sequence: the same site
twice, a second site, and the other alias from the first site. -/
def exSiteA : Frame := { fname := "caller_a", filename := "conf.py", lineno := some 10 }

/-- A second, distinct call site. -/
def exSiteB : Frame := { fname := "caller_b", filename := "tasks.py", lineno := some 3 }

/-- The concrete deprecation call sequence. -/
def exCalls : List (String × Frame) :=
  [("getPluginsOfCategory", exSiteA),
   ("getPluginsOfCategory", exSiteA),
   ("getPluginsOfCategory", exSiteB),
   ("getPluginByName", exSiteA)]

/-- A loaded plugin named `X` (first-loaded). -/
def exInfoX1 : PluginInfo :=
  { name := "X", description := none, plugin_id := "Plugin X from a"
    category := "PageCompiler", compiler := none, source_dir := ["a"]
    module_name := "m1", module_object := 0, plugin_object := exCls }

/-- A second loaded plugin also named `X` (loaded later, other category). -/
def exInfoX2 : PluginInfo :=
  { name := "X", description := none, plugin_id := "Plugin X from b"
    category := "Taxonomy", compiler := none, source_dir := ["b"]
    module_name := "m2", module_object := 1, plugin_object := exCls }

/-- A manager state with two loaded plugins sharing the name `X`. -/
def exWorldDup : World :=
  { initialWorld with plugins := [exInfoX1, exInfoX2] }

/-- The plugin that loading `exCand` into a fresh process produces. -/
def exInfoLoaded : PluginInfo :=
  { name := exCand.name
    description := exCand.description
    plugin_id := exCand.plugin_id
    category := exCand.category
    compiler := exCand.compiler
    source_dir := exCand.source_dir
    module_name := exCand.module_name
    module_object := 0
    plugin_object := exCls }

/-! ## Helper lemmas -/

/-- A manifest with a well-formed `[Core]` section never makes
`processManifest` raise: it is either rejected with a warning or accepted. -/
theorem processManifest_not_crashed (cats : List String) (p : PyPath) (m : Manifest)
    (h : coreWellFormed m = true) (e : String) :
    processManifest cats p m ≠ ManifestResult.crashed e := by
  rcases m with ⟨core, doc, nik⟩
  rcases core with _ | ⟨nm, md⟩
  · simp [coreWellFormed] at h
  · rcases nm with _ | nm
    · simp [coreWellFormed] at h
    · rcases md with _ | md
      · simp [coreWellFormed] at h
      · rcases nik with _ | ⟨cat0, comp⟩
        · simp [processManifest]
        · rcases cat0 with _ | cat0
          · simp [processManifest]
          · simp only [processManifest]
            split
            · simp
            · split <;> simp

/-- The `locate_plugins` loop, on manifests whose `[Core]` sections are
well-formed, runs to completion and accumulates exactly the accepted
candidates and the rejection warnings. -/
theorem locateGo_ok (cats : List String) (ms : List (PyPath × Manifest)) :
    ∀ (cands : List PluginCandidate) (warns : List String),
    (∀ pm ∈ ms, coreWellFormed pm.2 = true) →
    locateGo cats ms cands warns =
      Except.ok (cands ++ ms.filterMap (acceptedOf cats),
                 warns ++ ms.filterMap (warningOf cats)) := by
  induction ms with
  | nil => intro cands warns _; simp [locateGo]
  | cons pm rest ih =>
    intro cands warns h
    obtain ⟨p, m⟩ := pm
    have hm : coreWellFormed m = true := h (p, m) (by simp)
    have hrest : ∀ q ∈ rest, coreWellFormed q.2 = true := fun q hq => h q (by simp [hq])
    rcases hr : processManifest cats p m with e | w | c
    · exact absurd hr (processManifest_not_crashed cats p m hm e)
    · rw [locateGo, hr]
      dsimp only
      rw [ih cands (warns ++ [w]) hrest]
      simp [acceptedOf, warningOf, hr]
    · rw [locateGo, hr]
      dsimp only
      rw [ih (cands ++ [c]) warns hrest]
      simp [acceptedOf, warningOf, hr]

/-! ## C1 -/

/-- C1, as stated, is false: a single manifest whose content lacks the
`[Core]` section makes the whole `locate_plugins` call fail with an
uncaught `KeyError` instead of being logged and skipped. -/
theorem c1_counterexample :
    locate_plugins exCats [(["place", "bad.plugin"], exManifestNoCore)] =
      Except.error "KeyError: Core" := by
  rfl

/-- C1 (amended): for every list of manifest files whose `[Core]` sections
carry `name` and `module`, `locate_plugins` runs to completion and returns
the candidate list; each manifest that fails validation (missing `[Nikola]`
section, empty or absent category, category not in the registry) is logged
as a warning and skipped individually, and no such manifest's content makes
the whole call fail. -/
theorem c1_locate_isolated (cats : List String) (ms : List (PyPath × Manifest))
    (h : ∀ pm ∈ ms, coreWellFormed pm.2 = true) :
    locate_plugins cats ms =
      Except.ok (ms.filterMap (acceptedOf cats), ms.filterMap (warningOf cats)) := by
  unfold locate_plugins
  rw [locateGo_ok cats ms [] [] h]
  simp

/-- Witness for C1 (amended): a concrete batch of one valid and one
invalid manifest; the call succeeds, the valid manifest yields its
candidate and the invalid one yields exactly its warning line. -/
theorem c1_witness :
    (∀ pm ∈ exManifests, coreWellFormed pm.2 = true) ∧
    locate_plugins exCats exManifests =
      Except.ok (exManifests.filterMap (acceptedOf exCats),
                 exManifests.filterMap (warningOf exCats)) :=
  ⟨by decide, c1_locate_isolated exCats exManifests (by decide)⟩

/-! ## C2 -/

/-- C2, as stated, is false: loading the very same code file through
`load_plugins` a second time resolves to the same qualified module name
(`m`), yet `exec_module` runs again — the execution trace holds the file
twice and the second load produces a fresh module object (identity 1)
instead of reusing the registered one (identity 0). -/
theorem c2_counterexample :
    fullModuleNameOf exRoot ["other", "a", "m.py"] exCand.module_name = "m" ∧
    (loadLoop exFs exRoot initialWorld [exCand, exCand]).execLog =
      [["other", "a", "m.py"], ["other", "a", "m.py"]] ∧
    (loadLoop exFs exRoot initialWorld [exCand, exCand]).execLog.count
        (["other", "a", "m.py"] : PyPath) ≠ 1 ∧
    (loadLoop exFs exRoot initialWorld [exCand, exCand]).plugins.map
        PluginInfo.module_object = [0, 1] ∧
    (loadLoop exFs exRoot initialWorld [exCand, exCand]).sysModules = [("m", 0)] := by
  decide

/-- C2 (amended): for every candidate whose code file resolves, the loader
executes the code unconditionally — the execution trace grows by that file
even when the qualified module name is already registered; only the
`sys.modules` registration is first-wins: an existing entry for the
resolved qualified name is kept and the fresh module object is not
registered, while top-level side effects run again. -/
theorem c2_registration_first_wins (fs : FileSystem) (root : PyPath) (st : World)
    (c : PluginCandidate) (p : PyPath) (code : ModuleCode)
    (hres : resolveCode fs c = some (p, code)) :
    (loadOne fs root st c).execLog = st.execLog ++ [p] ∧
    (loadOne fs root st c).sysModules =
      (if (assocLookup st.sysModules (fullModuleNameOf root p c.module_name)).isSome
       then st.sysModules
       else st.sysModules ++ [(fullModuleNameOf root p c.module_name, st.nextId)]) := by
  unfold loadOne
  rw [hres]
  refine ⟨?_, ?_⟩ <;> (dsimp only; repeat' split) <;> rfl

/-- Witness for C2 (amended): the concrete candidate's file resolves, and
one `loadOne` step appends the file to the execution trace and registers
the fresh module object under its qualified name. -/
theorem c2_witness :
    resolveCode exFs exCand = some (["other", "a", "m.py"], exCode) ∧
    ((loadOne exFs exRoot initialWorld exCand).execLog =
        initialWorld.execLog ++ [["other", "a", "m.py"]] ∧
     (loadOne exFs exRoot initialWorld exCand).sysModules =
       (if (assocLookup initialWorld.sysModules
              (fullModuleNameOf exRoot ["other", "a", "m.py"] exCand.module_name)).isSome
        then initialWorld.sysModules
        else initialWorld.sysModules ++
          [(fullModuleNameOf exRoot ["other", "a", "m.py"] exCand.module_name,
            initialWorld.nextId)])) :=
  ⟨by decide,
   c2_registration_first_wins exFs exRoot initialWorld exCand ["other", "a", "m.py"] exCode
     (by decide)⟩

/-! ## C3 -/

/-- C3: for a candidate whose code resolves and executes successfully, the
loader counts the top-level definitions that are plugin classes (subclasses
of the capability base type, excluding the abstract category types): zero
matches or more than one match log a warning and skip the candidate; with
exactly one match whose construction succeeds, that definition is
instantiated and the loaded plugin (carrying it as the plugin object) is
appended; a construction failure is logged and skipped. -/
theorem c3_exactly_one_plugin_class (fs : FileSystem) (root : PyPath) (st : World)
    (c : PluginCandidate) (p : PyPath) (code : ModuleCode)
    (hres : resolveCode fs c = some (p, code)) (hexec : code.execOk = true) :
    (pluginClasses code = [] →
      (loadOne fs root st c).plugins = st.plugins ∧
      (loadOne fs root st c).log = st.log ++
        [c.plugin_id ++ " (" ++ pathToString p ++ ")" ++
          " does not have any plugin classes"]) ∧
    ((pluginClasses code).length > 1 →
      (loadOne fs root st c).plugins = st.plugins ∧
      (loadOne fs root st c).log = st.log ++
        [c.plugin_id ++ " (" ++ pathToString p ++ ")" ++
          " has multiple plugin classes; this is not supported - skipping"]) ∧
    (∀ cls, pluginClasses code = [cls] → cls.instOk = true →
      (loadOne fs root st c).plugins = st.plugins ++
        [{ name := c.name
           description := c.description
           plugin_id := c.plugin_id
           category := c.category
           compiler := c.compiler
           source_dir := c.source_dir
           module_name := c.module_name
           module_object := st.nextId
           plugin_object := cls }]) ∧
    (∀ cls, pluginClasses code = [cls] → cls.instOk = false →
      (loadOne fs root st c).plugins = st.plugins ∧
      (loadOne fs root st c).log = st.log ++
        [c.plugin_id ++ " (" ++ pathToString p ++ ")" ++
          " threw an exception while creating an instance"]) := by
  unfold loadOne
  rw [hres]
  dsimp only
  rw [hexec]
  refine ⟨?_, ?_, ?_, ?_⟩
  · intro h0
    rw [h0]
    simp
  · intro h2
    rcases hpc : pluginClasses code with _ | ⟨cls, _ | ⟨cls2, more⟩⟩
    · simp [hpc] at h2
    · simp [hpc] at h2
    · simp
  · intro cls h1 hinst
    simp [h1, hinst]
  · intro cls h1 hinst
    simp [h1, hinst]

/-- Witness for C3: the concrete module defines exactly one plugin class,
construction succeeds, and the loaded plugin carrying that class is
appended. -/
theorem c3_witness :
    resolveCode exFs exCand = some (["other", "a", "m.py"], exCode) ∧
    exCode.execOk = true ∧ pluginClasses exCode = [exCls] ∧ exCls.instOk = true ∧
    (loadOne exFs exRoot initialWorld exCand).plugins = initialWorld.plugins ++
      [{ name := exCand.name
         description := exCand.description
         plugin_id := exCand.plugin_id
         category := exCand.category
         compiler := exCand.compiler
         source_dir := exCand.source_dir
         module_name := exCand.module_name
         module_object := initialWorld.nextId
         plugin_object := exCls }] :=
  ⟨by decide, rfl, by decide, rfl,
   (c3_exactly_one_plugin_class exFs exRoot initialWorld exCand ["other", "a", "m.py"] exCode
      (by decide) rfl).2.2.1 exCls (by decide) rfl⟩

/-! ## C4 -/

/-- The candidate-visible data of the plugin a successful load constructs
is the originating candidate itself. -/
theorem infoCore_mk (c : PluginCandidate) (mo : Nat) (po : PyDef) :
    infoCore
      { name := c.name
        description := c.description
        plugin_id := c.plugin_id
        category := c.category
        compiler := c.compiler
        source_dir := c.source_dir
        module_name := c.module_name
        module_object := mo
        plugin_object := po } = c := rfl

/-- One loader step: the candidate-visible data of the plugins grows by the
candidate exactly when it is individually valid, and exactly one log line
is emitted per candidate. -/
theorem loadOne_core (fs : FileSystem) (root : PyPath) (st : World)
    (c : PluginCandidate) :
    (loadOne fs root st c).plugins.map infoCore =
      st.plugins.map infoCore ++ (if loadsOk fs c then [c] else []) ∧
    (loadOne fs root st c).log.length = st.log.length + 1 := by
  unfold loadOne loadsOk
  rcases hres : resolveCode fs c with _ | ⟨p, code⟩
  · simp
  · dsimp only
    rcases hexec : code.execOk with _ | _
    · simp [hexec]
    · rcases hpc : pluginClasses code with _ | ⟨cls, _ | ⟨cls2, more⟩⟩
      · simp [hexec]
      · rcases hinst : cls.instOk with _ | _
        · simp [hexec, hinst]
        · simp [hexec, hinst, infoCore_mk]
      · simp [hexec]

/-- C4: a load pass never aborts, and the failure of any single candidate
(missing code file, exception during execution, zero or multiple plugin
classes, exception during instantiation) only skips that candidate with a
log line: the plugins accumulated by the batch are exactly the individually
valid candidates, in order, regardless of the failures around them, and
every candidate (failed or loaded) contributes exactly one log line. -/
theorem c4_batch_isolation (fs : FileSystem) (root : PyPath) (st : World)
    (cands : List PluginCandidate) :
    (loadLoop fs root st cands).plugins.map infoCore =
      st.plugins.map infoCore ++ cands.filter (loadsOk fs) ∧
    (loadLoop fs root st cands).log.length = st.log.length + cands.length := by
  induction cands generalizing st with
  | nil => simp [loadLoop]
  | cons c rest ih =>
    have hstep := loadOne_core fs root st c
    have hrest := ih (loadOne fs root st c)
    constructor
    · rw [show loadLoop fs root st (c :: rest) = loadLoop fs root (loadOne fs root st c) rest
          from rfl]
      rw [hrest.1, hstep.1, List.append_assoc]
      rcases hok : loadsOk fs c with _ | _ <;> simp [List.filter_cons, hok]
    · rw [show loadLoop fs root st (c :: rest) = loadLoop fs root (loadOne fs root st c) rest
          from rfl]
      rw [hrest.2, hstep.2]
      simp [Nat.add_assoc, Nat.add_comm 1 rest.length]

/-! ## C5 -/

/-- Membership in the throttle set after one `_warn_deprecation` call:
the previous members plus the call's key. -/
theorem mem_warnDeprecation_iff (st : World) (m : String) (f : Frame) (k : DepKey) :
    (k ∈ (warnDeprecation st m f).deprecationAlreadyWarned) ↔
      (k ∈ st.deprecationAlreadyWarned ∨ k = depKey m f) := by
  unfold warnDeprecation
  dsimp only
  split
  · rename_i hmem
    constructor
    · exact Or.inl
    · rintro (h | rfl)
      · exact h
      · exact hmem
  · simp [List.mem_append]

/-- `_warn_deprecation` grows the log exactly when its key is new. -/
theorem warnDeprecation_logged_iff (st : World) (m : String) (f : Frame) :
    (st.log.length < (warnDeprecation st m f).log.length) ↔
      depKey m f ∉ st.deprecationAlreadyWarned := by
  unfold warnDeprecation
  dsimp only
  split
  · rename_i hmem
    simp [hmem]
  · rename_i hmem
    simp [hmem]

/-- The warning trace has one entry per call. -/
theorem warnedTrace_length (calls : List (String × Frame)) :
    ∀ st : World, (warnedTrace st calls).length = calls.length := by
  induction calls with
  | nil => intro st; rfl
  | cons call rest ih =>
    intro st
    obtain ⟨m, f⟩ := call
    rw [warnedTrace]
    simp [ih]

/-- A call of a `_warn_deprecation` sequence warns exactly when its key is
neither in the initial throttle set nor the key of an earlier call. -/
theorem warnedTrace_getD (calls : List (String × Frame)) :
    ∀ (st : World) (i : Nat), i < calls.length →
    ((warnedTrace st calls).getD i false = true ↔
      (depKeyOfCall (calls.getD i default) ∉ st.deprecationAlreadyWarned ∧
       depKeyOfCall (calls.getD i default) ∉ (calls.take i).map depKeyOfCall)) := by
  induction calls with
  | nil => intro st i hi; simp at hi
  | cons call rest ih =>
    intro st i hi
    obtain ⟨m, f⟩ := call
    rw [warnedTrace]
    cases i with
    | zero =>
      simp only [List.getD_cons_zero, List.take_zero, List.map_nil, List.not_mem_nil,
        and_true, decide_eq_true_eq]
      rw [warnDeprecation_logged_iff]
      simp [depKeyOfCall]
    | succ i =>
      have hi' : i < rest.length := by simpa using hi
      simp only [List.getD_cons_succ, List.take_succ_cons, List.map_cons, List.mem_cons]
      rw [ih (warnDeprecation st m f) i hi', mem_warnDeprecation_iff]
      constructor
      · rintro ⟨hnot, htail⟩
        push_neg at hnot
        exact ⟨hnot.1, fun h => h.elim (fun he => hnot.2 (by simpa [depKeyOfCall] using he))
          htail⟩
      · rintro ⟨hst, hrest⟩
        push_neg at hrest
        exact ⟨fun h => h.elim hst (fun he => hrest.1 (by simpa [depKeyOfCall] using he)),
          hrest.2⟩

/-- C5: for every `_warn_deprecation` call sequence of a fresh manager and
every position in it, the advisory warning is emitted at that call exactly
when no earlier call carries the same throttle key (alias identifier,
caller filename, caller line): the first call from a site warns, repeated
calls from the same site stay silent for the life of the process, and a
different call site or a different alias warns independently. -/
theorem c5_warn_once_per_site (calls : List (String × Frame)) (i : Nat)
    (hi : i < calls.length) :
    ((warnedTrace initialWorld calls).getD i false = true ↔
      depKeyOfCall (calls.getD i default) ∉ (calls.take i).map depKeyOfCall) := by
  have h := warnedTrace_getD calls initialWorld i hi
  simpa [initialWorld] using h

/-- Witness for C5: position 1 of the concrete call sequence (the second
call from the same site with the same alias) warns exactly when its key is
absent among the earlier keys — here it is present, so it stays silent. -/
theorem c5_witness :
    (1 < exCalls.length) ∧
    ((warnedTrace initialWorld exCalls).getD 1 false = true ↔
      depKeyOfCall (exCalls.getD 1 default) ∉ (exCalls.take 1).map depKeyOfCall) :=
  ⟨by decide, c5_warn_once_per_site exCalls 1 (by decide)⟩

/-! ## C6 -/

/-- The scan returns the fall-through `None` exactly when nothing
matches. -/
theorem pluginByNameScan_eq_none (plugins : List PluginInfo) (name : String)
    (category : Option String) :
    pluginByNameScan plugins name category = none ↔
      ∀ p ∈ plugins, nameMatches p name category = false := by
  induction plugins with
  | nil => simp [pluginByNameScan]
  | cons q rest ih =>
    by_cases hq : nameMatches q name category = true
    · simp [pluginByNameScan, hq]
    · rw [pluginByNameScan, if_neg hq]
      simp only [List.mem_cons]
      rw [ih]
      constructor
      · intro h p hp
        rcases hp with rfl | hp
        · simpa using hq
        · exact h p hp
      · intro h p hp
        exact h p (Or.inr hp)

/-- A returned plugin matches and is the first match of the scan order. -/
theorem pluginByNameScan_first (name : String) (category : Option String) :
    ∀ (plugins : List PluginInfo) (p : PluginInfo),
    pluginByNameScan plugins name category = some p →
    nameMatches p name category = true ∧
    ∃ l1 l2, plugins = l1 ++ p :: l2 ∧ ∀ q ∈ l1, nameMatches q name category = false := by
  intro plugins
  induction plugins with
  | nil => intro p h; simp [pluginByNameScan] at h
  | cons q rest ih =>
    intro p h
    by_cases hq : nameMatches q name category = true
    · rw [pluginByNameScan, if_pos hq] at h
      obtain rfl : q = p := by injection h
      exact ⟨hq, [], rest, rfl, by simp⟩
    · rw [pluginByNameScan, if_neg hq] at h
      obtain ⟨hm, l1, l2, rfl, hall⟩ := ih p h
      refine ⟨hm, q :: l1, l2, rfl, ?_⟩
      intro r hr
      rw [List.mem_cons] at hr
      rcases hr with rfl | hr
      · simpa using hq
      · exact hall r hr

/-- C6: `get_plugin_by_name` is a linear first-match scan in load order:
it returns `None` exactly when no loaded plugin has the given name (and
the given category, when one is given); a returned plugin satisfies the
match condition and every plugin loaded before it fails the condition — so
with duplicate names only the first-loaded match is ever returned. -/
theorem c6_first_match_by_name (st : World) (name : String) (category : Option String) :
    (get_plugin_by_name st name category = none ↔
      ∀ p ∈ st.plugins, nameMatches p name category = false) ∧
    (∀ p, get_plugin_by_name st name category = some p →
      nameMatches p name category = true ∧
      ∃ l1 l2, st.plugins = l1 ++ p :: l2 ∧
        ∀ q ∈ l1, nameMatches q name category = false) :=
  ⟨pluginByNameScan_eq_none st.plugins name category,
   fun p h => pluginByNameScan_first name category st.plugins p h⟩

/-- Witness for C6: with two loaded plugins both named `X`, the scan
returns the first-loaded one, it matches, and nothing before it matches. -/
theorem c6_witness :
    get_plugin_by_name exWorldDup "X" none = some exInfoX1 ∧
    (nameMatches exInfoX1 "X" none = true ∧
     ∃ l1 l2, exWorldDup.plugins = l1 ++ exInfoX1 :: l2 ∧
       ∀ q ∈ l1, nameMatches q "X" none = false) :=
  ⟨by decide, (c6_first_match_by_name exWorldDup "X" none).2 exInfoX1 (by decide)⟩

/-! ## C7 -/

/-- Looking a category up in the freshly initialized index:
an empty bucket for known categories, nothing otherwise. -/
theorem assocLookup_init (cats : List String) (c : String) :
    assocLookup (cats.map fun k => (k, ([] : List PluginInfo))) c =
      if c ∈ cats then some [] else none := by
  induction cats with
  | nil => simp [assocLookup]
  | cons k rest ih =>
    by_cases hk : k = c
    · subst hk
      simp [assocLookup]
    · rw [List.map_cons, assocLookup, if_neg hk, ih]
      by_cases hc : c ∈ rest
      · rw [if_pos hc, if_pos (List.mem_cons_of_mem k hc)]
      · rw [if_neg hc, if_neg ?_]
        intro hcon
        rcases List.mem_cons.mp hcon with rfl | hmem
        · exact hk rfl
        · exact hc hmem

/-- `addToIndex` fails exactly when the plugin's category is not a key. -/
theorem addToIndex_none_iff (p : PluginInfo) :
    ∀ idx, addToIndex idx p = none ↔ assocLookup idx p.category = none := by
  intro idx
  induction idx with
  | nil => simp [addToIndex, assocLookup]
  | cons kv rest ih =>
    obtain ⟨k, l⟩ := kv
    by_cases hk : k = p.category
    · rw [addToIndex, if_pos hk, assocLookup, if_pos hk]
      simp
    · rw [addToIndex, if_neg hk, assocLookup, if_neg hk, ← ih]
      simp

/-- A successful `addToIndex` appends the plugin to its category's bucket
and leaves every other bucket alone. -/
theorem addToIndex_lookup (p : PluginInfo) :
    ∀ (idx idx' : List (String × List PluginInfo)),
    addToIndex idx p = some idx' →
    ∀ c, assocLookup idx' c =
      if c = p.category then (assocLookup idx c).map (fun l => l ++ [p])
      else assocLookup idx c := by
  intro idx
  induction idx with
  | nil => intro idx' h; simp [addToIndex] at h
  | cons kv rest ih =>
    intro idx' h c
    obtain ⟨k, l⟩ := kv
    by_cases hk : k = p.category
    · rw [addToIndex, if_pos hk] at h
      obtain rfl : (k, l ++ [p]) :: rest = idx' := by injection h
      by_cases hc : k = c
      · have hcpc : c = p.category := (hc.symm).trans hk
        rw [assocLookup, if_pos hc, assocLookup, if_pos hc, if_pos hcpc]
        rfl
      · have hcp : ¬(c = p.category) := fun hcon => hc (hk.trans hcon.symm)
        rw [assocLookup, if_neg hc, assocLookup, if_neg hc, if_neg hcp]
    · rw [addToIndex, if_neg hk] at h
      rcases htail : addToIndex rest p with _ | rest'
      · rw [htail] at h
        simp at h
      · rw [htail] at h
        obtain rfl : (k, l) :: rest' = idx' := by
          simp only [Option.map_some'] at h
          injection h
        by_cases hc : k = c
        · have hcp : ¬(c = p.category) := fun hcon => hk (hc.trans hcon)
          rw [assocLookup, if_pos hc, assocLookup, if_pos hc, if_neg hcp]
        · rw [assocLookup, if_neg hc, assocLookup, if_neg hc]
          exact ih rest' htail c

/-- The index rebuild, on plugins whose categories are all keys, succeeds
and appends every plugin to its category's bucket in order. -/
theorem rebuildFold_lookup :
    ∀ (plugins : List PluginInfo) (idx : List (String × List PluginInfo)),
    (∀ p ∈ plugins, (assocLookup idx p.category).isSome = true) →
    ∃ idx', rebuildFold idx plugins = some idx' ∧
      ∀ c, assocLookup idx' c =
        (assocLookup idx c).map
          (fun l => l ++ plugins.filter (fun p => p.category = c)) := by
  intro plugins
  induction plugins with
  | nil =>
    intro idx _
    refine ⟨idx, rfl, ?_⟩
    intro c
    cases assocLookup idx c <;> simp
  | cons p rest ih =>
    intro idx h
    have hp : (assocLookup idx p.category).isSome = true := h p (by simp)
    have hne : ¬(addToIndex idx p = none) := by
      rw [addToIndex_none_iff]
      intro hcon
      rw [hcon] at hp
      simp at hp
    rcases hadd : addToIndex idx p with _ | idx1
    · exact absurd hadd hne
    · have hlook := addToIndex_lookup p idx idx1 hadd
      have hrest : ∀ q ∈ rest, (assocLookup idx1 q.category).isSome = true := by
        intro q hq
        rw [hlook q.category]
        by_cases hcat : q.category = p.category
        · rw [if_pos hcat, hcat]
          rcases hval : assocLookup idx p.category with _ | l
          · rw [hval] at hp; simp at hp
          · simp [hval]
        · rw [if_neg hcat]
          exact h q (by simp [hq])
      obtain ⟨idx', hfold, hfinal⟩ := ih idx1 hrest
      refine ⟨idx', ?_, ?_⟩
      · rw [rebuildFold, hadd]
        exact hfold
      · intro c
        rw [hfinal c, hlook c]
        by_cases hc : c = p.category
        · rw [if_pos hc]
          have hd : p.category = c := hc.symm
          rcases hval : assocLookup idx c with _ | l
          · simp
          · simp [List.filter_cons, hd, List.append_assoc]
        · rw [if_neg hc]
          have hpc : ¬(p.category = c) := fun hcon => hc hcon.symm
          rcases hval : assocLookup idx c with _ | l
          · simp
          · simp [List.filter_cons, hpc]

/-- C7: whenever a load pass completes over plugins with known categories,
`get_plugins_of_category` never fails: the index, rebuilt from scratch over
all accumulated plugins, has an entry for every known category holding that
category's plugins in load order (empty when none loaded), and an
unrecognized category falls back to the empty list. -/
theorem c7_category_index (fs : FileSystem) (root : PyPath) (cats : List String)
    (st : World) (cands : List PluginCandidate) (cat : String)
    (h : ∀ p ∈ (loadLoop fs root st cands).plugins, p.category ∈ cats) :
    ∃ w, load_plugins fs root cats st cands = some w ∧
      w.plugins = (loadLoop fs root st cands).plugins ∧
      get_plugins_of_category w cat =
        (if cat ∈ cats then w.plugins.filter (fun p => p.category = cat) else []) := by
  have hsome : ∀ p ∈ (loadLoop fs root st cands).plugins,
      (assocLookup (cats.map fun k => (k, ([] : List PluginInfo))) p.category).isSome = true := by
    intro p hp
    rw [assocLookup_init, if_pos (h p hp)]
    rfl
  obtain ⟨idx', hfold, hfinal⟩ :=
    rebuildFold_lookup (loadLoop fs root st cands).plugins
      (cats.map fun k => (k, ([] : List PluginInfo))) hsome
  refine ⟨{ loadLoop fs root st cands with pluginsByCategory := idx' }, ?_, rfl, ?_⟩
  · unfold load_plugins rebuildIndex
    dsimp only
    rw [hfold]
  · unfold get_plugins_of_category
    rw [hfinal cat, assocLookup_init]
    by_cases hc : cat ∈ cats
    · rw [if_pos hc, if_pos hc]
      simp
    · rw [if_neg hc, if_neg hc]
      rfl

/-- Witness for C7: one concrete load pass; the known category `Taxonomy`
has no loaded plugins and yields the empty list through the index. -/
theorem c7_witness :
    (∀ p ∈ (loadLoop exFs exRoot initialWorld [exCand]).plugins, p.category ∈ exCats) ∧
    ∃ w, load_plugins exFs exRoot exCats initialWorld [exCand] = some w ∧
      w.plugins = (loadLoop exFs exRoot initialWorld [exCand]).plugins ∧
      get_plugins_of_category w "Taxonomy" =
        (if "Taxonomy" ∈ exCats then w.plugins.filter (fun p => p.category = "Taxonomy")
         else []) :=
  ⟨by decide,
   c7_category_index exFs exRoot exCats initialWorld [exCand] "Taxonomy" (by decide)⟩

/-! ## C8 -/

/-- C8: a manifest whose declared category is a key of the legacy-alias
table yields a candidate carrying the canonical category, and the
substitution is applied before the registry membership check: acceptance
only requires the canonical name to be registered, never the legacy one. -/
theorem c8_legacy_alias (cats : List String) (plugin_file : PyPath) (nm md : String)
    (doc : Option (Option String)) (cat0 v : String) (comp : Option String)
    (hleg : assocLookup LEGACY_PLUGIN_NAMES cat0 = some v) (hv : v ∈ cats) :
    processManifest cats plugin_file
        { core := some { name := some nm, module := some md }
          documentation := doc
          nikola := some { pluginCategory := some cat0, compiler := comp } } =
      ManifestResult.accepted
        { name := nm
          description := (match doc with | none => none | some d => d)
          plugin_id := "Plugin " ++ nm ++ " from " ++ pathToString plugin_file
          category := v
          compiler := comp
          source_dir := plugin_file.dropLast
          module_name := md } := by
  have hne : ¬(cat0 = "") := by
    intro hcon
    subst hcon
    simp [LEGACY_PLUGIN_NAMES, assocLookup] at hleg
  rw [processManifest]
  dsimp only
  rw [if_neg hne, hleg]
  dsimp only
  rw [if_pos hv]

/-- Witness for C8: the legacy category `Compiler` is substituted to the
canonical `PageCompiler` and accepted against a registry that does not even
contain the legacy name. -/
theorem c8_witness :
    assocLookup LEGACY_PLUGIN_NAMES "Compiler" = some "PageCompiler" ∧
    ("PageCompiler" ∈ exCats) ∧ ("Compiler" ∉ exCats) ∧
    processManifest exCats ["place", "c", "c.plugin"]
        { core := some { name := some "C", module := some "c" }
          documentation := none
          nikola := some { pluginCategory := some "Compiler", compiler := none } } =
      ManifestResult.accepted
        { name := "C"
          description := (match (none : Option (Option String)) with
                          | none => none
                          | some d => d)
          plugin_id := "Plugin " ++ "C" ++ " from " ++ pathToString ["place", "c", "c.plugin"]
          category := "PageCompiler"
          compiler := none
          source_dir := (["place", "c", "c.plugin"] : PyPath).dropLast
          module_name := "c" } :=
  ⟨by decide, by decide, by decide,
   c8_legacy_alias exCats ["place", "c", "c.plugin"] "C" "c" none "Compiler" "PageCompiler"
     none (by decide) (by decide)⟩

/-! ## C9 -/

/-- C9: the deprecated aliases return exactly what the canonical query
operations return, and their warning bookkeeping never changes the loaded
plugins or the category index. -/
theorem c9_aliases_agree (st : World) (caller : Frame) (category : String)
    (name : String) (ncat : Option String) :
    ((getPluginsOfCategory st caller category).2 = get_plugins_of_category st category) ∧
    ((getPluginByName st caller name ncat).2 = get_plugin_by_name st name ncat) ∧
    ((getPluginsOfCategory st caller category).1.plugins = st.plugins ∧
     (getPluginsOfCategory st caller category).1.pluginsByCategory = st.pluginsByCategory) ∧
    ((getPluginByName st caller name ncat).1.plugins = st.plugins ∧
     (getPluginByName st caller name ncat).1.pluginsByCategory = st.pluginsByCategory) := by
  have hfields : ∀ m f, (warnDeprecation st m f).plugins = st.plugins ∧
      (warnDeprecation st m f).pluginsByCategory = st.pluginsByCategory := by
    intro m f
    unfold warnDeprecation
    dsimp only
    split <;> exact ⟨rfl, rfl⟩
  refine ⟨?_, ?_, hfields _ caller, hfields _ caller⟩
  · unfold getPluginsOfCategory get_plugins_of_category
    dsimp only
    rw [(hfields "getPluginsOfCategory" caller).2]
  · unfold getPluginByName get_plugin_by_name
    dsimp only
    rw [(hfields "getPluginByName" caller).1]

/-! ## C10 -/

/-- C10: every plugin a load step produces (beyond those already loaded)
carries the originating candidate's name, description, diagnostic id,
category, compiler, source directory and module name unchanged — in
particular the stored `plugin_id` is the candidate's original one, without
the code-file path suffix used only in the log messages. -/
theorem c10_candidate_fields_preserved (fs : FileSystem) (root : PyPath) (st : World)
    (c : PluginCandidate) (info : PluginInfo)
    (h : info ∈ (loadOne fs root st c).plugins) :
    info ∈ st.plugins ∨
      (info.name = c.name ∧ info.description = c.description ∧
       info.plugin_id = c.plugin_id ∧ info.category = c.category ∧
       info.compiler = c.compiler ∧ info.source_dir = c.source_dir ∧
       info.module_name = c.module_name) := by
  rcases hres : resolveCode fs c with _ | ⟨p, code⟩
  · rw [loadOne, hres] at h
    exact Or.inl h
  · rcases hexec : code.execOk with _ | _
    · simp [loadOne, hres, hexec] at h
      exact Or.inl h
    · rcases hpc : pluginClasses code with _ | ⟨cls, _ | ⟨cls2, more⟩⟩
      · simp [loadOne, hres, hexec, hpc] at h
        exact Or.inl h
      · rcases hinst : cls.instOk with _ | _
        · simp [loadOne, hres, hexec, hpc, hinst] at h
          exact Or.inl h
        · simp [loadOne, hres, hexec, hpc, hinst] at h
          rcases h with h | h
          · exact Or.inl h
          · subst h
            exact Or.inr ⟨rfl, rfl, rfl, rfl, rfl, rfl, rfl⟩
      · simp [loadOne, hres, hexec, hpc] at h
        exact Or.inl h

/-- Witness for C10: the concretely loaded plugin's stored fields equal the
candidate's, including the original diagnostic id. -/
theorem c10_witness :
    exInfoLoaded ∈ (loadOne exFs exRoot initialWorld exCand).plugins ∧
    (exInfoLoaded ∈ initialWorld.plugins ∨
      (exInfoLoaded.name = exCand.name ∧ exInfoLoaded.description = exCand.description ∧
       exInfoLoaded.plugin_id = exCand.plugin_id ∧ exInfoLoaded.category = exCand.category ∧
       exInfoLoaded.compiler = exCand.compiler ∧
       exInfoLoaded.source_dir = exCand.source_dir ∧
       exInfoLoaded.module_name = exCand.module_name)) :=
  ⟨by decide,
   c10_candidate_fields_preserved exFs exRoot initialWorld exCand exInfoLoaded (by decide)⟩

end Nikola
